import Mathlib

/-!
Shallow embedding of the selector execution engine of `select_stock_new.py`
(with its metadata provider `ts_client.py`), and proofs of the spec's
testable properties about it.

Conventions of the embedding:
* Python/JSON values appearing in the configuration file are modelled by
  the inductive type `JVal`; a Python dict is a `List (String × JVal)`
  with at most one binding per key (lookup takes the first binding, which
  coincides with dict semantics).
* pandas tables are lists of rows; a row's `date` cell is `Option Nat`
  (`none` models a null / NaT date, `some d` a parsed date, dates being
  abstracted to naturals ordered as timestamps are).
* A Python exception is modelled by the `Except.error` branch; `sys.exit(1)`
  and an uncaught exception both abort the process and are modelled by the
  error / `none` branch of the function that performs them.
* File-system and network effects are passed in as explicit functions
  (`files : String → Option Table` models the data directory, a catalog
  function models the dynamically importable `Selector` module).
-/

namespace StockSelect

/-- JSON-like values as parsed by `json.load` in `load_config`, also used for
the fields of a selector configuration dict. -/
inductive JVal where
  | null
  | bool (b : Bool)
  | num (n : Int)
  | str (s : String)
  | arr (items : List JVal)
  | obj (fields : List (String × JVal))

/-- A configuration dict (`cfg` in the source): an association list of
string keys to JSON values. -/
abbrev Spec := List (String × JVal)

/-- Python `dict.get(key)`: the value bound to `key`, if any (first binding;
dict keys are unique). -/
def objGet (fields : Spec) (key : String) : Option JVal :=
  (fields.find? (fun kv => kv.1 == key)).map (·.2)

/-- Python truthiness test `not v` on a JSON-shaped value: `None`, `False`,
`0`, `""`, `[]` and the empty dict are falsy. -/
def pyFalsy : JVal → Bool
  | .null => true
  | .bool b => !b
  | .num n => n == 0
  | .str s => s == ""
  | .arr items => items.isEmpty
  | .obj fields => fields.isEmpty

/-- `load_config` after the JSON parse (`cfg_raw` is the parsed document):
the shape dispatch of lines 63-68 followed by the emptiness check of
lines 70-72 (`sys.exit(1)` modelled as `Except.error`). A list is taken
as-is, a dict with a `selectors` key contributes that key's value, and any
other value is wrapped as a one-element list. -/
def load_config (cfg_raw : JVal) : Except Unit JVal :=
  let cfgs : JVal :=
    match cfg_raw with
    | .arr items => .arr items
    | .obj fields =>
      match objGet fields "selectors" with
      | some sel => sel
      | none => .arr [.obj fields]
    | other => .arr [other]
  if pyFalsy cfgs then .error () else .ok cfgs

/-- C3: the three accepted configuration shapes — an array of specs, an
object whose `selectors` key holds that array, and (for a one-spec
configuration) the bare spec object itself (which, being a spec, has no
`selectors` key) — all normalize to the same ordered list of specs, the
source order being preserved (the array case is the identity); a bare
object becomes a one-element list. -/
theorem config_shapes_normalize_alike
    (l : List JVal) (hl : l ≠ [])
    (wrapper : Spec) (hsel : objGet wrapper "selectors" = some (.arr l))
    (bare : Spec) (hbare : objGet bare "selectors" = none) :
    load_config (.arr l) = .ok (.arr l)
      ∧ load_config (.obj wrapper) = .ok (.arr l)
      ∧ load_config (.obj bare) = .ok (.arr [.obj bare]) := by
  refine ⟨?_, ?_, ?_⟩
  · simp [load_config, pyFalsy, hl]
  · simp [load_config, hsel, pyFalsy, hl]
  · simp [load_config, hbare, pyFalsy]

/-- Witness for C3: a concrete two-spec content, presented as an array and
as a `selectors`-wrapped object, and a concrete one-spec content presented
bare. -/
theorem config_shapes_normalize_alike_witness :
    load_config (.arr [.obj [("class", .str "A")], .obj [("class", .str "B")]])
        = .ok (.arr [.obj [("class", .str "A")], .obj [("class", .str "B")]])
      ∧ load_config (.obj [("selectors",
            .arr [.obj [("class", .str "A")], .obj [("class", .str "B")]])])
        = .ok (.arr [.obj [("class", .str "A")], .obj [("class", .str "B")]])
      ∧ load_config (.obj [("class", .str "A")])
        = .ok (.arr [.obj [("class", .str "A")]]) := by
  have h := config_shapes_normalize_alike
    [.obj [("class", .str "A")], .obj [("class", .str "B")]]
    (by simp)
    [("selectors", .arr [.obj [("class", .str "A")], .obj [("class", .str "B")]])]
    rfl
    [("class", .str "A")]
    rfl
  exact ⟨h.1, h.2.1, h.2.2⟩

/-- A row of a per-symbol CSV after `pd.read_csv(fp, parse_dates=["date"])`:
the parsed `date` cell (`none` = null/NaT) plus the remaining numeric cells,
which the engine never inspects. -/
structure Row where
  date : Option Nat
  vals : List Int
deriving DecidableEq

/-- A per-symbol table: the rows of one CSV file, in file order before
sorting. -/
abbrev Table := List Row

/-- The order `sort_values("date")` sorts by: ascending on parsed dates,
null dates placed last (pandas `na_position="last"`). -/
def keyLe : Option Nat → Option Nat → Prop
  | _, none => True
  | none, some _ => False
  | some x, some y => x ≤ y

instance : DecidableRel keyLe := fun a b => by
  cases a <;> cases b <;> simp only [keyLe] <;> infer_instance

theorem keyLe_total (a b : Option Nat) : keyLe a b ∨ keyLe b a := by
  cases a <;> cases b <;> simp [keyLe] <;> omega

theorem keyLe_trans {a b c : Option Nat} (h1 : keyLe a b) (h2 : keyLe b c) :
    keyLe a c := by
  cases a <;> cases b <;> cases c <;> simp_all [keyLe] <;> omega

/-- Row comparison used to sort a table: compare the `date` cells. -/
def rowLe (a b : Row) : Prop := keyLe a.date b.date

instance : DecidableRel rowLe := fun a b => by
  unfold rowLe; infer_instance

instance : IsTotal Row rowLe := ⟨fun a b => keyLe_total a.date b.date⟩

instance : IsTrans Row rowLe := ⟨fun _ _ _ h1 h2 => keyLe_trans h1 h2⟩

/-- The `.sort_values("date")` step of `load_data`: sort the rows of one
table ascending by date, nulls last; no row is dropped. -/
def sortTable (raw : Table) : Table := List.insertionSort rowLe raw

/-- Python dict assignment `frames[code] = df`: replace the value in place
if the key is present, else append the binding. -/
def dictInsert (m : List (String × Table)) (k : String) (v : Table) :
    List (String × Table) :=
  if m.any (fun kv => kv.1 == k) then
    m.map (fun kv => if kv.1 == k then (k, v) else kv)
  else m ++ [(k, v)]

/-- The loop of `load_data` (lines 45-51): `acc` is the `frames` dict built
so far; a code whose file is missing is skipped with a warning, otherwise
the file is read, sorted by date and inserted. `files` models the data
directory: `files code` is the parsed content of `<code>.csv`, if that file
exists and is readable. -/
def loadAux (files : String → Option Table) :
    List String → List (String × Table) → List (String × Table)
  | [], acc => acc
  | code :: rest, acc =>
    match files code with
    | none => loadAux files rest acc
    | some raw => loadAux files rest (dictInsert acc code (sortTable raw))

/-- `load_data(data_dir, codes)`: build the DatasetView. -/
def load_data (files : String → Option Table) (codes : List String) :
    List (String × Table) :=
  loadAux files codes []

theorem dictInsert_keys (m : List (String × Table)) (k : String) (v : Table) :
    (dictInsert m k v).map Prod.fst =
      if k ∈ m.map Prod.fst then m.map Prod.fst else m.map Prod.fst ++ [k] := by
  unfold dictInsert
  by_cases h : k ∈ m.map Prod.fst
  · have hany : m.any (fun kv => kv.1 == k) = true := by
      simp only [List.any_eq_true, beq_iff_eq]
      obtain ⟨⟨k', v'⟩, hm, he⟩ := List.mem_map.mp h
      exact ⟨(k', v'), hm, he⟩
    simp only [hany, if_true, h, if_pos]
    rw [List.map_map]
    apply List.map_congr_left
    intro kv _
    by_cases hk : kv.1 = k
    · simp [hk]
    · simp [hk]
  · have hany : m.any (fun kv => kv.1 == k) = false := by
      simp only [List.any_eq_false, beq_iff_eq]
      intro kv hm he
      exact h (List.mem_map.mpr ⟨kv, hm, he⟩)
    simp [hany, h]

theorem dictInsert_mem {m : List (String × Table)} {k : String} {v : Table}
    {p : String × Table} (h : p ∈ dictInsert m k v) : p ∈ m ∨ p = (k, v) := by
  unfold dictInsert at h
  by_cases hany : m.any (fun kv => kv.1 == k) = true
  · simp only [hany, if_true] at h
    obtain ⟨kv, hm, he⟩ := List.mem_map.mp h
    by_cases hk : (kv.1 == k) = true
    · right
      rw [if_pos hk] at he
      exact he.symm
    · left
      rw [if_neg hk] at he
      exact he ▸ hm
  · rw [if_neg hany] at h
    rcases List.mem_append.mp h with h | h
    · exact Or.inl h
    · exact Or.inr (List.mem_singleton.mp h)

theorem dictInsert_keys_mem {m : List (String × Table)} {k c : String}
    {v : Table} :
    c ∈ (dictInsert m k v).map Prod.fst ↔ c ∈ m.map Prod.fst ∨ c = k := by
  rw [dictInsert_keys]
  by_cases h : k ∈ m.map Prod.fst
  · rw [if_pos h]
    constructor
    · exact Or.inl
    · rintro (hc | rfl)
      · exact hc
      · exact h
  · rw [if_neg h]
    simp [List.mem_append]

theorem loadAux_keys_mem (files : String → Option Table) (codes : List String)
    (acc : List (String × Table)) (c : String) :
    c ∈ (loadAux files codes acc).map Prod.fst ↔
      c ∈ acc.map Prod.fst ∨ (c ∈ codes ∧ (files c).isSome) := by
  induction codes generalizing acc with
  | nil => simp [loadAux]
  | cons code rest ih =>
    cases hf : files code with
    | none =>
      have hcn : c = code → ¬ (files c).isSome = true := by
        rintro rfl hs
        rw [hf] at hs
        exact absurd hs (by simp)
      simp only [loadAux, hf, ih, List.mem_cons]
      tauto
    | some raw =>
      have hcs : c = code → (files c).isSome = true := by
        rintro rfl
        rw [hf]
        rfl
      simp only [loadAux, hf, ih, dictInsert_keys_mem, List.mem_cons]
      tauto

theorem loadAux_keys_nodup (files : String → Option Table) (codes : List String)
    (acc : List (String × Table)) (h : (acc.map Prod.fst).Nodup) :
    ((loadAux files codes acc).map Prod.fst).Nodup := by
  induction codes generalizing acc with
  | nil => simpa [loadAux]
  | cons code rest ih =>
    cases hf : files code with
    | none =>
      simp only [loadAux, hf]
      exact ih _ h
    | some raw =>
      simp only [loadAux, hf]
      apply ih
      rw [dictInsert_keys]
      by_cases hk : code ∈ acc.map Prod.fst
      · simpa [hk] using h
      · simp [hk, List.nodup_append, h]

theorem loadAux_values (files : String → Option Table) (codes : List String)
    (acc : List (String × Table))
    (hacc : ∀ p ∈ acc, ∃ raw, files p.1 = some raw ∧ p.2 = sortTable raw) :
    ∀ p ∈ loadAux files codes acc,
      ∃ raw, files p.1 = some raw ∧ p.2 = sortTable raw := by
  induction codes generalizing acc with
  | nil => exact hacc
  | cons code rest ih =>
    cases hf : files code with
    | none =>
      simp only [loadAux, hf]
      exact ih _ hacc
    | some raw =>
      simp only [loadAux, hf]
      apply ih
      intro p hp
      rcases dictInsert_mem hp with h | rfl
      · exact hacc p h
      · exact ⟨raw, hf, rfl⟩

/-- C4: a requested symbol whose backing file is missing is simply excluded:
the DatasetView's keys are exactly the requested codes whose file loads,
without duplicates, so its size is the number of distinct resolvable
symbols; and the view (whose emptiness is the fatal condition `main` checks
at lines 203-205) is empty exactly when no requested symbol has a backing
file. -/
theorem dataset_loader_partial (files : String → Option Table)
    (codes : List String) :
    ((load_data files codes).map Prod.fst).Nodup
    ∧ (∀ c, c ∈ (load_data files codes).map Prod.fst
          ↔ c ∈ codes ∧ (files c).isSome)
    ∧ (load_data files codes).length
        = (codes.toFinset.filter (fun c => (files c).isSome)).card
    ∧ (load_data files codes = [] ↔ ∀ c ∈ codes, files c = none) := by
  have hmem : ∀ c, c ∈ (load_data files codes).map Prod.fst
      ↔ c ∈ codes ∧ (files c).isSome := by
    intro c
    rw [load_data, loadAux_keys_mem]
    simp
  have hnodup : ((load_data files codes).map Prod.fst).Nodup :=
    loadAux_keys_nodup files codes [] (by simp)
  refine ⟨hnodup, hmem, ?_, ?_⟩
  · have hlen : (load_data files codes).length
        = ((load_data files codes).map Prod.fst).length := by
      rw [List.length_map]
    rw [hlen, ← List.toFinset_card_of_nodup hnodup]
    congr 1
    ext a
    simp only [List.mem_toFinset, Finset.mem_filter, hmem]
  · rw [← List.map_eq_nil (f := Prod.fst), List.eq_nil_iff_forall_not_mem]
    constructor
    · intro h c hc
      have := h c
      rw [hmem] at this
      rcases hfc : files c with _ | raw
      · rfl
      · exact absurd ⟨hc, by rw [hfc]; rfl⟩ this
    · intro h c
      rw [hmem]
      rintro ⟨hc, hs⟩
      rw [h c hc] at hs
      exact absurd hs (by simp)

/-- C9: every table admitted into the DatasetView is the corresponding
file's rows sorted ascending by date (nulls last): its date sequence is
non-decreasing under that order, and it is a permutation of the raw rows —
nothing is deduplicated or dropped, null and duplicate dates included. -/
theorem admitted_tables_sorted (files : String → Option Table)
    (codes : List String) (c : String) (t : Table)
    (h : (c, t) ∈ load_data files codes) :
    ∃ raw, files c = some raw ∧ t.Perm raw
      ∧ List.Sorted keyLe (t.map Row.date) := by
  obtain ⟨raw, hraw, ht⟩ := loadAux_values files codes [] (by simp) (c, t) h
  have hraw' : files c = some raw := hraw
  have ht' : t = sortTable raw := ht
  refine ⟨raw, hraw', ?_, ?_⟩
  · rw [ht']
    exact List.perm_insertionSort rowLe raw
  · rw [ht']
    have hs : List.Sorted rowLe (sortTable raw) :=
      List.sorted_insertionSort rowLe raw
    exact List.Pairwise.map Row.date (fun {a b} hab => hab) hs

/-- The data directory of the C9 witness: one file, `000001.csv`, whose rows
carry the dates 3, null, 1 in that order. -/
def c9files : String → Option Table := fun c =>
  if c = "000001" then
    some [⟨some 3, [5]⟩, ⟨none, [7]⟩, ⟨some 1, [6]⟩]
  else none

/-- Witness for C9: the single admitted table of the concrete run over
`c9files` is a sorted permutation of its file's rows. -/
theorem admitted_tables_sorted_witness :
    ∃ raw, c9files "000001" = some raw
      ∧ List.Perm [(⟨some 1, [6]⟩ : Row), ⟨some 3, [5]⟩, ⟨none, [7]⟩] raw
      ∧ List.Sorted keyLe
          ([(⟨some 1, [6]⟩ : Row), ⟨some 3, [5]⟩, ⟨none, [7]⟩].map Row.date) :=
  admitted_tables_sorted c9files ["000001"]
    "000001" [⟨some 1, [6]⟩, ⟨some 3, [5]⟩, ⟨none, [7]⟩] (by decide)

/-- `df["date"].dropna()`: the non-null dates of a table, in row order. -/
def nonNullDates (t : Table) : List Nat := t.filterMap Row.date

/-- Trade-date resolution (lines 207-215 of `main`): an explicit `--date`
is used verbatim; otherwise Python's `max` over the generator that yields
`df["date"].dropna().max()` for every loaded table that is non-empty and
has at least one non-null date. `none` models the uncaught `ValueError`
that `max` raises on an empty generator, which aborts the run. -/
def resolveTradeDate (explicit : Option Nat) (data : List (String × Table)) :
    Option Nat :=
  match explicit with
  | some d => some d
  | none =>
    (data.filterMap (fun kv =>
      if ¬ kv.2.isEmpty ∧ nonNullDates kv.2 ≠ [] then (nonNullDates kv.2).max?
      else none)).max?

theorem resolveTradeDate_branch (kv : String × Table) :
    (if ¬ kv.2.isEmpty ∧ nonNullDates kv.2 ≠ [] then (nonNullDates kv.2).max?
      else none) = (nonNullDates kv.2).max? := by
  by_cases h : nonNullDates kv.2 = []
  · simp [h]
  · have hne : ¬ kv.2.isEmpty := by
      intro he
      rw [List.isEmpty_iff] at he
      rw [he] at h
      exact h rfl
    simp [h, hne]

/-- C2: with no explicit date, the resolved trade date is the maximum
non-null date across all loaded tables — it is a non-null date of some
table and bounds every non-null date of every table — and resolution
fails (the run aborts) exactly when every loaded table is empty or
entirely null-dated. -/
theorem trade_date_default (data : List (String × Table)) :
    (resolveTradeDate none data = none ↔ ∀ kv ∈ data, nonNullDates kv.2 = [])
    ∧ (∀ m, resolveTradeDate none data = some m →
        (∃ kv ∈ data, m ∈ nonNullDates kv.2)
        ∧ ∀ kv ∈ data, ∀ d ∈ nonNullDates kv.2, d ≤ m) := by
  have hsimp : resolveTradeDate none data
      = (data.filterMap (fun kv => (nonNullDates kv.2).max?)).max? := by
    show (data.filterMap (fun kv =>
        if ¬ kv.2.isEmpty ∧ nonNullDates kv.2 ≠ [] then (nonNullDates kv.2).max?
        else none)).max? = _
    congr 1
    apply List.filterMap_congr
    intro kv _
    exact resolveTradeDate_branch kv
  constructor
  · rw [hsimp, List.max?_eq_none_iff, List.filterMap_eq_nil_iff]
    constructor
    · intro h kv hkv
      have := h kv hkv
      rwa [List.max?_eq_none_iff] at this
    · intro h kv hkv
      rw [List.max?_eq_none_iff]
      exact h kv hkv
  · intro m hm
    rw [hsimp, List.max?_eq_some_iff'] at hm
    obtain ⟨hmem, hbound⟩ := hm
    obtain ⟨kv, hkv, hg⟩ := List.mem_filterMap.mp hmem
    constructor
    · refine ⟨kv, hkv, ?_⟩
      exact (List.max?_eq_some_iff'.mp hg).1
    · intro kv' hkv' d hd
      have hne : nonNullDates kv'.2 ≠ [] := by
        intro he
        rw [he] at hd
        exact absurd hd (List.not_mem_nil d)
      rcases hmx : (nonNullDates kv'.2).max? with _ | mx
      · rw [List.max?_eq_none_iff] at hmx
        exact absurd hmx hne
      · have hd_le : d ≤ mx := (List.max?_eq_some_iff'.mp hmx).2 d hd
        have hmx_mem : mx ∈ data.filterMap (fun kv => (nonNullDates kv.2).max?) :=
          List.mem_filterMap.mpr ⟨kv', hkv', hmx⟩
        exact le_trans hd_le (hbound mx hmx_mem)

/-- Witness for C2: the spec's scenario — tables with maximum non-null
dates 10, 12, 8 (plus a null-dated row) resolve to 12, which occurs in one
table and bounds all dates. -/
theorem trade_date_default_witness :
    (∃ kv ∈ [("A", [(⟨some 10, []⟩ : Row)]),
             ("B", [(⟨none, []⟩ : Row), ⟨some 12, []⟩]),
             ("C", [(⟨some 8, []⟩ : Row)])], 12 ∈ nonNullDates kv.2)
    ∧ ∀ kv ∈ [("A", [(⟨some 10, []⟩ : Row)]),
              ("B", [(⟨none, []⟩ : Row), ⟨some 12, []⟩]),
              ("C", [(⟨some 8, []⟩ : Row)])],
        ∀ d ∈ nonNullDates kv.2, d ≤ 12 :=
  (trade_date_default
      [("A", [(⟨some 10, []⟩ : Row)]),
       ("B", [(⟨none, []⟩ : Row), ⟨some 12, []⟩]),
       ("C", [(⟨some 8, []⟩ : Row)])]).2 12 (by decide)

/-- One row of the stock-basic-info table returned by
`ts_client.get_stock_basic_info` (columns `ts_code, name, area, industry`;
the further columns are never read by the engine). -/
structure StockInfo where
  ts_code : String
  name : String
  area : String
  industry : String
deriving DecidableEq

/-- The process state relevant to the metadata cache: the module-level
`_stock_info_cache` global (initially `None`) together with a count of the
provider fetches performed so far (for stating at-most-once population). -/
structure CacheState where
  cache : Option (List StockInfo)
  fetchCount : Nat
deriving DecidableEq

/-- `get_stock_info_cache` (lines 20-25): if the global is `None`, fetch
from the provider (`get_stock_basic_info`, whose successful response is the
`provider` argument) and store it; then return the stored table. -/
def get_stock_info_cache (provider : List StockInfo) (s : CacheState) :
    CacheState × List StockInfo :=
  match s.cache with
  | some v => (s, v)
  | none => (⟨some provider, s.fetchCount + 1⟩, provider)

/-- A sequence of `n` successive calls to `get_stock_info_cache` within one
process: final state plus the value each call returned. -/
def cacheCalls (provider : List StockInfo) : Nat → CacheState →
    CacheState × List (List StockInfo)
  | 0, s => (s, [])
  | n + 1, s =>
    let (s1, r) := get_stock_info_cache provider s
    let (s2, rs) := cacheCalls provider n s1
    (s2, r :: rs)

theorem cacheCalls_populated (provider : List StockInfo) (n : Nat)
    (k : Nat) :
    cacheCalls provider n ⟨some provider, k⟩
      = (⟨some provider, k⟩, List.replicate n provider) := by
  induction n with
  | zero => rfl
  | succ n ih => simp [cacheCalls, get_stock_info_cache, ih, List.replicate]

/-- C7: starting from the fresh process state (empty cache, no fetches),
any positive number of calls performs exactly one provider fetch — by the
first caller — and every call, the first included, returns that single
fetched table. -/
theorem metadata_cache_single_fetch (provider : List StockInfo) (n : Nat) :
    (cacheCalls provider (n + 1) ⟨none, 0⟩).1 = ⟨some provider, 1⟩
    ∧ (cacheCalls provider (n + 1) ⟨none, 0⟩).2
        = List.replicate (n + 1) provider := by
  have h1 : get_stock_info_cache provider ⟨none, 0⟩
      = (⟨some provider, 1⟩, provider) := rfl
  constructor
  · show (cacheCalls provider (n + 1) ⟨none, 0⟩).1 = _
    simp [cacheCalls, h1, cacheCalls_populated]
  · simp [cacheCalls, h1, cacheCalls_populated, List.replicate]

/-- One row of the exported table (`result_df`): the picked code plus the
three enrichment columns. -/
structure ResultRow where
  ts_code : String
  name : String
  area : String
  industry : String
deriving DecidableEq

/-- The enrichment step of `save_selection_results_to_excel`
(lines 144-158): if the cached info table is non-empty, filter it by
`ts_code` and take the first matching row's `name`/`area`/`industry`; an
empty filter result — or an empty cache — yields empty strings. -/
def enrichFields (cache : List StockInfo) (ts_code : String) :
    String × String × String :=
  if cache.isEmpty then ("", "", "")
  else
    match cache.filter (fun i => i.ts_code == ts_code) with
    | [] => ("", "", "")
    | info :: _ => (info.name, info.area, info.industry)

/-- `save_selection_results_to_excel` (lines 93-173), restricted to the
data it exports: `none` models the early `return None` on an empty pick
list (and only that — enrichment itself cannot fail); otherwise the rows
written to the Excel file, one per pick, in pick order. File naming and
the actual write (whose failure also returns `None` but changes no row)
are I/O and are not modelled. -/
def save_selection_results_to_excel (picks : List String)
    (cache : List StockInfo) : Option (List ResultRow) :=
  if picks.isEmpty then none
  else
    some (picks.map (fun c =>
      let f := enrichFields cache c
      ⟨c, f.1, f.2.1, f.2.2⟩))

theorem enrichFields_find (cache : List StockInfo) (c : String) :
    enrichFields cache c
      = match cache.find? (fun i => i.ts_code == c) with
        | some info => (info.name, info.area, info.industry)
        | none => ("", "", "") := by
  rw [enrichFields]
  by_cases he : cache.isEmpty
  · rw [if_pos he]
    rw [List.isEmpty_iff] at he
    subst he
    rfl
  · rw [if_neg he, ← List.filter_head? (fun i => i.ts_code == c) cache]
    cases cache.filter (fun i => i.ts_code == c) <;> rfl

/-- C8: exporting a non-empty PickSet yields a table whose `ts_code` column
is exactly the picked codes (in pick order, hence the same set of codes),
each enriched with the cache's first entry for that code, or with empty
strings when the cache holds no entry (an empty cache included); no code
can make the export fail. -/
theorem export_enriched_rows (picks : List String) (cache : List StockInfo)
    (h : picks ≠ []) :
    ∃ rows, save_selection_results_to_excel picks cache = some rows
      ∧ rows.map ResultRow.ts_code = picks
      ∧ ∀ r ∈ rows,
          match cache.find? (fun i => i.ts_code == r.ts_code) with
          | some info => r.name = info.name ∧ r.area = info.area
              ∧ r.industry = info.industry
          | none => r.name = "" ∧ r.area = "" ∧ r.industry = "" := by
  refine ⟨picks.map (fun c =>
      let f := enrichFields cache c
      ⟨c, f.1, f.2.1, f.2.2⟩), ?_, ?_, ?_⟩
  · rw [save_selection_results_to_excel, if_neg (by simpa using h)]
  · rw [List.map_map]
    exact List.map_id'' (fun x => rfl) picks
  · intro r hr
    obtain ⟨c, _, hc⟩ := List.mem_map.mp hr
    have hcode : r.ts_code = c := by rw [← hc]
    subst hcode
    rw [← hc, enrichFields_find]
    cases cache.find? (fun i => i.ts_code == r.ts_code) <;> exact ⟨rfl, rfl, rfl⟩

/-- Witness for C8: two picks, one present in a one-entry cache and one
absent, export to rows enriched from the cache and with empty strings
respectively. -/
theorem export_enriched_rows_witness :
    ∃ rows, save_selection_results_to_excel ["000001.SZ", "999999.SZ"]
        [⟨"000001.SZ", "PAB", "SZ", "Bank"⟩] = some rows
      ∧ rows.map ResultRow.ts_code = ["000001.SZ", "999999.SZ"]
      ∧ ∀ r ∈ rows,
          match [(⟨"000001.SZ", "PAB", "SZ", "Bank"⟩ : StockInfo)].find?
              (fun i => i.ts_code == r.ts_code) with
          | some info => r.name = info.name ∧ r.area = info.area
              ∧ r.industry = info.industry
          | none => r.name = "" ∧ r.area = "" ∧ r.industry = "" :=
  export_enriched_rows ["000001.SZ", "999999.SZ"]
    [⟨"000001.SZ", "PAB", "SZ", "Bank"⟩] (by simp)

/-- A constructed selector instance: the one capability the engine uses.
`select` returning `Except.error` models the strategy's `select` raising
an exception. -/
structure Strategy where
  select : Nat → List (String × Table) → Except String (List String)

/-- The dynamically imported `Selector` module: for each class name either
a constructor — which may itself raise on the given params — or nothing
when `getattr` fails. -/
abbrev Catalog := String → Option (JVal → Except String Strategy)

/-- `instantiate_selector` (lines 77-90): a missing or falsy `class` field
raises `ValueError`; a class name `getattr` cannot resolve (any non-string
truthy value included) raises; the constructor applied to the `params`
field (defaulting to an empty dict) may raise; on success the instance is
paired with `cfg.get("alias", cls_name)`. All failure modes surface as the
exception `main` catches around construction. -/
def instantiate_selector (catalog : Catalog) (cfg : Spec) :
    Except String (JVal × Strategy) :=
  match objGet cfg "class" with
  | none => .error "missing class field"
  | some v =>
    if pyFalsy v then .error "missing class field"
    else
      match v with
      | .str cls_name =>
        match catalog cls_name with
        | none => .error ("cannot load Selector." ++ cls_name)
        | some ctor =>
          match ctor ((objGet cfg "params").getD (.obj [])) with
          | .error e => .error e
          | .ok strat => .ok ((objGet cfg "alias").getD (.str cls_name), strat)
      | _ => .error "class field is not a string"

/-- Observable actions of the per-spec loop of `main` (lines 223-244). -/
inductive Event where
  | factoryCall (cfg : Spec)
  | constructFailed (cfg : Spec)
  | selectCall (als : JVal)
  | reported (als : JVal) (picks : List String)
  | exported (als : JVal) (picks : List String)

/-- The test `cfg.get("activate", True) is False` of line 224: true only
when the `activate` key holds the literal boolean `False` — an absent key
defaults to the object `True`, and no other value (0, None, "", ...) is
identical to `False`. -/
def activateIsFalse (cfg : Spec) : Bool :=
  match objGet cfg "activate" with
  | some (.bool false) => true
  | _ => false

/-- The per-spec loop of `main` (lines 223-244): skip explicitly
deactivated specs; catch construction failures, log them
(`constructFailed`) and continue with the next spec; call `select` with
the resolved trade date and the DatasetView with no surrounding handler —
an exception there propagates and terminates the loop, recorded in the
second component; report each obtained PickSet (`reported`) and export it
when it is non-empty and `--excel` was given. Returns the event trace and
`some e` exactly when the run died with uncaught exception `e`. -/
def runSelectors (catalog : Catalog) (td : Nat)
    (data : List (String × Table)) (excel : Bool) :
    List Spec → List Event × Option String
  | [] => ([], none)
  | cfg :: rest =>
    if activateIsFalse cfg then runSelectors catalog td data excel rest
    else
      match instantiate_selector catalog cfg with
      | .error _ =>
        let r := runSelectors catalog td data excel rest
        (.factoryCall cfg :: .constructFailed cfg :: r.1, r.2)
      | .ok (als, strat) =>
        match strat.select td data with
        | .error e => ([.factoryCall cfg, .selectCall als], some e)
        | .ok picks =>
          let r := runSelectors catalog td data excel rest
          (.factoryCall cfg :: .selectCall als :: .reported als picks ::
            ((if picks ≠ [] ∧ excel then [Event.exported als picks] else [])
              ++ r.1),
           r.2)

/-- The RunResults of a trace: one `(als, PickSet)` per `reported`
event. -/
def runResults (trace : List Event) : List (JVal × List String) :=
  trace.filterMap (fun e =>
    match e with
    | .reported als picks => some (als, picks)
    | _ => none)

theorem runSelectors_cons_active (catalog : Catalog) (td : Nat)
    (data : List (String × Table)) (excel : Bool) (cfg : Spec)
    (rest : List Spec) (ha : activateIsFalse cfg = false) :
    runSelectors catalog td data excel (cfg :: rest)
      = match instantiate_selector catalog cfg with
        | .error _ =>
          (.factoryCall cfg :: .constructFailed cfg ::
            (runSelectors catalog td data excel rest).1,
           (runSelectors catalog td data excel rest).2)
        | .ok (als, strat) =>
          match strat.select td data with
          | .error e => ([.factoryCall cfg, .selectCall als], some e)
          | .ok picks =>
            (.factoryCall cfg :: .selectCall als :: .reported als picks ::
              ((if picks ≠ [] ∧ excel then [Event.exported als picks] else [])
                ++ (runSelectors catalog td data excel rest).1),
             (runSelectors catalog td data excel rest).2) := by
  rw [runSelectors, if_neg (by simp [ha])]

/-- C5: a spec whose `activate` field holds the literal `False` contributes
nothing to the run — no factory call, no select call, no RunResult appear
in the trace, which is exactly the trace of the remaining specs. -/
theorem inactive_spec_skipped (catalog : Catalog) (td : Nat)
    (data : List (String × Table)) (excel : Bool) (cfg : Spec)
    (rest : List Spec) (h : objGet cfg "activate" = some (.bool false)) :
    runSelectors catalog td data excel (cfg :: rest)
      = runSelectors catalog td data excel rest := by
  have ha : activateIsFalse cfg = true := by rw [activateIsFalse, h]
  rw [runSelectors, if_pos (by simp [ha])]

/-- Witness for C5: a deactivated spec alone in the list produces an empty
trace and no abort, exactly as the empty spec list does. -/
theorem inactive_spec_skipped_witness :
    runSelectors (fun _ => none) 0 [] false
        [[("class", JVal.str "Good"), ("activate", JVal.bool false)]]
      = ([], none) :=
  (inactive_spec_skipped (fun _ => none) 0 [] false
      [("class", JVal.str "Good"), ("activate", JVal.bool false)] [] rfl).trans
    rfl

/-- C6: a spec whose construction fails — missing `class` field,
unresolvable class name, or raising constructor, all of which surface as
`instantiate_selector` errors — is logged (`constructFailed`) and skipped,
and the remaining specs run exactly as they would alone: their trace,
RunResults and abort status are unchanged. -/
theorem construction_failure_isolated (catalog : Catalog) (td : Nat)
    (data : List (String × Table)) (excel : Bool) (cfg : Spec)
    (rest : List Spec) (e : String)
    (hact : activateIsFalse cfg = false)
    (h : instantiate_selector catalog cfg = .error e) :
    runSelectors catalog td data excel (cfg :: rest)
      = (.factoryCall cfg :: .constructFailed cfg ::
          (runSelectors catalog td data excel rest).1,
         (runSelectors catalog td data excel rest).2) := by
  rw [runSelectors_cons_active catalog td data excel cfg rest hact, h]

/-- The `Selector` module of the C6 witness: only the class `Good`
resolves; its instances pick one symbol. -/
def c6catalog : Catalog := fun s =>
  if s = "Good" then some (fun _ => .ok ⟨fun _ _ => .ok ["000001"]⟩)
  else none

/-- Witness for C6: two specs, one with an unresolvable class and one
valid and active, produce a per-spec failure event, exactly one RunResult
(the valid spec's), and no abort — the process exits zero. -/
theorem construction_failure_isolated_witness :
    runSelectors c6catalog 0 [] false
        [[("class", JVal.str "Nope")], [("class", JVal.str "Good")]]
      = ([Event.factoryCall [("class", JVal.str "Nope")],
          Event.constructFailed [("class", JVal.str "Nope")],
          Event.factoryCall [("class", JVal.str "Good")],
          Event.selectCall (JVal.str "Good"),
          Event.reported (JVal.str "Good") ["000001"]], none)
    ∧ runResults (runSelectors c6catalog 0 [] false
          [[("class", JVal.str "Nope")], [("class", JVal.str "Good")]]).1
        = [(JVal.str "Good", ["000001"])] := by
  have h := construction_failure_isolated c6catalog 0 [] false
    [("class", JVal.str "Nope")] [[("class", JVal.str "Good")]]
    "cannot load Selector.Nope" rfl rfl
  refine ⟨h.trans rfl, ?_⟩
  rw [h]
  rfl

/-- The `Selector` module of the C1 example run: class `Boom` constructs a
strategy whose `select` raises, class `Good` one that picks a symbol. -/
def c1catalog : Catalog := fun s =>
  if s = "Boom" then some (fun _ => .ok ⟨fun _ _ => .error "boom"⟩)
  else if s = "Good" then some (fun _ => .ok ⟨fun _ _ => .ok ["000002"]⟩)
  else none

/-- Counterexample to C1: in a run of two successfully constructed
strategies where the first one's `select` raises, the run aborts with that
exception (the abort component is not `none`) and produces no RunResult at
all — neither an empty PickSet for the failing strategy nor any result for
the subsequent strategy, which never executes. C1 demands the opposite:
no abort, an empty PickSet recorded, and the second strategy still run. -/
theorem select_failure_aborts_cex :
    (runSelectors c1catalog 0 [] false
        [[("class", JVal.str "Boom")], [("class", JVal.str "Good")]]).2
      = some "boom"
    ∧ runResults (runSelectors c1catalog 0 [] false
        [[("class", JVal.str "Boom")], [("class", JVal.str "Good")]]).1
      = [] :=
  ⟨rfl, rfl⟩

/-- C1 as amended: an exception raised by a constructed strategy's
`select` is not caught by the orchestrator — the run aborts with that
exception, the failing strategy yields no RunResult (empty or otherwise),
and no subsequent spec is constructed or invoked: the trace ends at the
failing select call. (Construction failures, by contrast, are isolated;
see the C6 theorem.) -/
theorem select_failure_aborts (catalog : Catalog) (td : Nat)
    (data : List (String × Table)) (excel : Bool) (cfg : Spec)
    (rest : List Spec) (als : JVal) (strat : Strategy) (e : String)
    (hact : activateIsFalse cfg = false)
    (hinst : instantiate_selector catalog cfg = .ok (als, strat))
    (hsel : strat.select td data = .error e) :
    runSelectors catalog td data excel (cfg :: rest)
      = ([Event.factoryCall cfg, Event.selectCall als], some e) := by
  simp only [runSelectors, hact, hinst, hsel, Bool.false_eq_true, if_false]

/-- Witness for the amended C1: the concrete two-spec run aborts at the
first strategy's raising `select`. -/
theorem select_failure_aborts_witness :
    runSelectors c1catalog 0 [] false
        [[("class", JVal.str "Boom")], [("class", JVal.str "Good")]]
      = ([Event.factoryCall [("class", JVal.str "Boom")],
          Event.selectCall (JVal.str "Boom")], some "boom") :=
  select_failure_aborts c1catalog 0 [] false
    [("class", JVal.str "Boom")] [[("class", JVal.str "Good")]]
    (JVal.str "Boom") ⟨fun _ _ => .error "boom"⟩ "boom" rfl rfl rfl

/-- C10: a spec is skipped only when its `activate` field is the literal
boolean `False`. Whenever the field is absent or holds any other value —
the falsy values 0, None and "" included — the spec is treated as active:
the factory is called for it (the trace of the run beginning at it starts
with its factory call), and when construction succeeds its `select` is
invoked. -/
theorem nonfalse_activate_treated_active (catalog : Catalog) (td : Nat)
    (data : List (String × Table)) (excel : Bool) (cfg : Spec)
    (rest : List Spec)
    (h : ∀ v, objGet cfg "activate" = some v → v ≠ JVal.bool false) :
    (∃ t, (runSelectors catalog td data excel (cfg :: rest)).1
        = Event.factoryCall cfg :: t)
    ∧ ∀ als strat, instantiate_selector catalog cfg = .ok (als, strat) →
        ∃ t, (runSelectors catalog td data excel (cfg :: rest)).1
          = Event.factoryCall cfg :: Event.selectCall als :: t := by
  have ha : activateIsFalse cfg = false := by
    rw [activateIsFalse]
    cases hv : objGet cfg "activate" with
    | none => rfl
    | some v =>
      have hne := h v hv
      cases v with
      | bool b =>
        cases b with
        | false => exact absurd rfl hne
        | true => rfl
      | null => rfl
      | num n => rfl
      | str s => rfl
      | arr items => rfl
      | obj fields => rfl
  constructor
  · rcases hinst : instantiate_selector catalog cfg with e | ⟨als, strat⟩
    · refine ⟨Event.constructFailed cfg
          :: (runSelectors catalog td data excel rest).1, ?_⟩
      simp only [runSelectors, ha, hinst, Bool.false_eq_true, if_false]
    · rcases hsel : strat.select td data with e | picks
      · refine ⟨[Event.selectCall als], ?_⟩
        simp only [runSelectors, ha, hinst, hsel, Bool.false_eq_true, if_false]
      · refine ⟨Event.selectCall als :: Event.reported als picks ::
            ((if picks ≠ [] ∧ excel then [Event.exported als picks] else [])
              ++ (runSelectors catalog td data excel rest).1), ?_⟩
        simp only [runSelectors, ha, hinst, hsel, Bool.false_eq_true, if_false]
  · intro als strat hinst
    rcases hsel : strat.select td data with e | picks
    · refine ⟨[], ?_⟩
      simp only [runSelectors, ha, hinst, hsel, Bool.false_eq_true, if_false]
    · refine ⟨Event.reported als picks ::
          ((if picks ≠ [] ∧ excel then [Event.exported als picks] else [])
            ++ (runSelectors catalog td data excel rest).1), ?_⟩
      simp only [runSelectors, ha, hinst, hsel, Bool.false_eq_true, if_false]

/-- The `Selector` module of the C10 witness: only class `Good` resolves. -/
def c10catalog : Catalog := fun s =>
  if s = "Good" then some (fun _ => .ok ⟨fun _ _ => .ok []⟩)
  else none

/-- Witness for C10: a spec whose `activate` field is the falsy integer 0
is nevertheless constructed and, construction succeeding, invoked. -/
theorem nonfalse_activate_treated_active_witness :
    (∃ t, (runSelectors c10catalog 0 [] false
        [[("class", JVal.str "Good"), ("activate", JVal.num 0)]]).1
      = Event.factoryCall
          [("class", JVal.str "Good"), ("activate", JVal.num 0)] :: t)
    ∧ ∀ als strat,
        instantiate_selector c10catalog
            [("class", JVal.str "Good"), ("activate", JVal.num 0)]
          = .ok (als, strat) →
        ∃ t, (runSelectors c10catalog 0 [] false
            [[("class", JVal.str "Good"), ("activate", JVal.num 0)]]).1
          = Event.factoryCall
              [("class", JVal.str "Good"), ("activate", JVal.num 0)]
            :: Event.selectCall als :: t :=
  nonfalse_activate_treated_active c10catalog 0 [] false
    [("class", JVal.str "Good"), ("activate", JVal.num 0)] []
    (fun v hv => by
      have h0 : some (JVal.num 0) = some v := hv
      injection h0 with h1
      subst h1
      intro hfalse
      exact JVal.noConfusion hfalse)

end StockSelect
